import Mathlib

/-
Verification of the time-windowed comparison and drill-down pipeline of the
analytics dashboards (src/home.py and src/product_usage.py): period-window
arithmetic, the combined-query half-split, sparse-day densification, the
dual-period boundary-shift alignment, and the click resolvers.

Dates are modelled as integer day numbers (one unit = one day).  Python dicts
keyed by day are modelled as key-value lists; the source rebuilds each dict
sorted by key, and dict keys are unique, so the rebuild is modelled with a
sort by the (key, value) lexicographic order, which agrees with any sort by
key on unique-key lists.
-/

namespace TrialsDash

/-! ## Period window arithmetic (home.py, update_new_trials_graph /
update_errors_graph / display_errors_click_data_graph)

`days_of_period = (end_date - start_date) - timedelta(days=1)` and
`interval_start_date = start_date - days_of_period`. -/

/-- home.py lines 150-154: `days_of_period`, the selected span minus one day. -/
def daysOfPeriod (s e : ℤ) : ℤ :=
  e - s - 1

/-- home.py line 157: `interval_start_date`, the start of the previous period. -/
def intervalStartDate (s e : ℤ) : ℤ :=
  s - daysOfPeriod s e

/-- The list of days `a, a+1, ..., b-1` (empty when `b ≤ a`); this models both
`generate_series(a, b - 1 day)` and Python `set(d0 + timedelta(x) for x in range(n))`. -/
def dateRange (a b : ℤ) : List ℤ :=
  (List.range (b - a).toNat).map (fun (i : ℕ) => a + (i : ℤ))

/-- home.py lines 160-185: the combined two-period query returns one row per
day of `generate_series(interval_start_date, end_date)` (LEFT JOIN grouped by
day, ordered by day).  We keep only the day of each row. -/
def newTrialsRows (s e : ℤ) : List ℤ :=
  dateRange (intervalStartDate s e) (e + 1)

/-- home.py line 188: `previous_period = new_trials[: (len(new_trials) // 2) + 1]`. -/
def previousPeriod (rows : List ℤ) : List ℤ :=
  rows.take (rows.length / 2 + 1)

/-- home.py line 189: `current_period = new_trials[(len(new_trials) // 2):]`. -/
def currentPeriod (rows : List ℤ) : List ℤ :=
  rows.drop (rows.length / 2)

theorem mem_dateRange {a b x : ℤ} : x ∈ dateRange a b ↔ a ≤ x ∧ x < b := by
  simp only [dateRange, List.mem_map, List.mem_range]
  constructor
  · rintro ⟨i, hi, rfl⟩
    omega
  · intro h
    exact ⟨(x - a).toNat, by omega, by omega⟩

theorem length_dateRange (a b : ℤ) : (dateRange a b).length = (b - a).toNat := by
  rw [dateRange, List.length_map, List.length_range]

/-- C2 counterexample: at `start_date = end_date` (a one-day window) the code
computes `interval_start_date = start_date + 1`, which is not strictly less
than `start_date`, contradicting the claim as stated. -/
theorem claim_C2_counterexample :
    intervalStartDate 0 0 = 1 ∧ ¬ intervalStartDate 0 0 < 0 := by
  constructor <;> decide

/-- C2 (amended): for `start_date ≤ end_date` the computed previous window
length `start_date - interval_start_date` always equals
`(end_date - start_date).days - 1`, and `interval_start_date < start_date`
holds exactly when the selected window spans at least two days
(`end_date - start_date ≥ 2`); for spans 0 and 1 it is `≥ start_date`. -/
theorem claim_C2_amended (s e : ℤ) (h : s ≤ e) :
    s - intervalStartDate s e = e - s - 1 ∧
      (2 ≤ e - s → intervalStartDate s e < s) ∧
      (e - s ≤ 1 → s ≤ intervalStartDate s e) := by
  unfold intervalStartDate daysOfPeriod
  omega

theorem claim_C2_witness :
    (0 : ℤ) - intervalStartDate 0 3 = 3 - 0 - 1 ∧
      (2 ≤ (3 : ℤ) - 0 → intervalStartDate 0 3 < 0) ∧
      ((3 : ℤ) - 0 ≤ 1 → (0 : ℤ) ≤ intervalStartDate 0 3) :=
  claim_C2_amended 0 3 (by decide)

/-- C1 counterexample: for the window `start = 0, end = 1` the combined query
returns 2 rows, the code slices `previous = rows[:2]` (2 rows) and
`current = rows[1:]` (1 row), so the two halves do not have equal length. -/
theorem claim_C1_counterexample :
    ¬ (previousPeriod (newTrialsRows 0 1)).length =
        (currentPeriod (newTrialsRows 0 1)).length := by
  decide

/-- C1 (amended): the combined query over
`[interval_start_date, end_date]` returns `2*(end-start)` rows; for any window
with `start_date < end_date` the split-by-count yields a previous slice one row
LONGER than the current slice (the middle row belongs to both slices), and for
`start_date = end_date` both slices are empty. -/
theorem claim_C1_amended (s e : ℤ) (h : s ≤ e) :
    (s < e →
      (previousPeriod (newTrialsRows s e)).length =
        (currentPeriod (newTrialsRows s e)).length + 1) ∧
    (s = e → previousPeriod (newTrialsRows s e) = [] ∧
      currentPeriod (newTrialsRows s e) = []) := by
  have hlen : (newTrialsRows s e).length = (2 * (e - s)).toNat := by
    unfold newTrialsRows intervalStartDate daysOfPeriod
    rw [length_dateRange]
    congr 1
    ring
  constructor
  · intro hlt
    unfold previousPeriod currentPeriod
    rw [List.length_take, List.length_drop, hlen]
    omega
  · intro heq
    subst heq
    have h0 : (newTrialsRows s s).length = 0 := by rw [hlen]; omega
    have h0' : newTrialsRows s s = [] := List.eq_nil_of_length_eq_zero h0
    unfold previousPeriod currentPeriod
    rw [h0']
    constructor <;> rfl

theorem claim_C1_witness :
    ((0 : ℤ) < 2 →
      (previousPeriod (newTrialsRows 0 2)).length =
        (currentPeriod (newTrialsRows 0 2)).length + 1) ∧
    ((0 : ℤ) = 2 → previousPeriod (newTrialsRows 0 2) = [] ∧
      currentPeriod (newTrialsRows 0 2) = []) :=
  claim_C1_amended 0 2 (by decide)

/-! ## Dense series builder and dual-period aligner
(home.py, display_errors_click_data_graph, lines 756-811)

The callback turns the clicked activities into two day-count dicts
(`Counter` + `sorted`), zero-fills the days missing between two boundary
anchors, and finally moves the first entry of the current dict into the
previous dict.  Python dicts keyed by day strings are modelled as key-value
lists rebuilt in sorted key order. -/

/-- Order on dict entries: by key, ties by value.  The source sorts by key
and dict keys are unique, so any tie-break yields the same list. -/
def pairLe (p q : ℤ × ℤ) : Prop :=
  p.1 < q.1 ∨ (p.1 = q.1 ∧ p.2 ≤ q.2)

instance : DecidableRel pairLe := fun p q => by
  unfold pairLe
  infer_instance

instance : IsTotal (ℤ × ℤ) pairLe :=
  ⟨fun a b => by unfold pairLe; omega⟩

instance : IsTrans (ℤ × ℤ) pairLe :=
  ⟨fun a b c hab hbc => by unfold pairLe at *; omega⟩

instance : IsAntisymm (ℤ × ℤ) pairLe :=
  ⟨fun a b hab hba => by
    unfold pairLe at hab hba
    have h1 : a.1 = b.1 := by omega
    have h2 : a.2 = b.2 := by omega
    exact Prod.ext h1 h2⟩

/-- Dict lookup with default 0, `counts.get(x, 0)`. -/
def lookup0 (x : ℤ) : List (ℤ × ℤ) → ℤ
  | [] => 0
  | p :: ps => if p.1 = x then p.2 else lookup0 x ps

/-- home.py lines 770-786 (and 788-804): the zero-fill step.  `d` is the
anchor day `a`, then the dict keys, then the anchor day `b`; the candidate
days are `range((d[-1] - d[0]).days)`, i.e. `[a, b-1]`; days already in `d`
are not refilled; the missing days are added with value 0 and the dict is
rebuilt in sorted key order. -/
def densify (a b : ℤ) (counts : List (ℤ × ℤ)) : List (ℤ × ℤ) :=
  List.insertionSort pairLe
    (counts ++
      ((dateRange a b).filter
          (fun x => decide (x ∉ a :: (counts.map Prod.fst ++ [b])))).map
        (fun x => (x, (0 : ℤ))))

/-- home.py lines 756-762: `dict(OrderedDict(sorted(Counter(days).items())))`,
the per-day multiplicity of a list of event days, in ascending key order. -/
def countsOf (days : List ℤ) : List (ℤ × ℤ) :=
  List.insertionSort pairLe (days.dedup.map (fun d => (d, (days.count d : ℤ))))

/-- Python `prev | {k: v}` for a single-entry right operand: an existing key
keeps its position and gets the new value, a fresh key is appended. -/
def dictUnionOne (m : List (ℤ × ℤ)) (p : ℤ × ℤ) : List (ℤ × ℤ) :=
  if p.1 ∈ m.map Prod.fst then
    m.map (fun q => if q.1 = p.1 then (q.1, p.2) else q)
  else m ++ [p]

/-- home.py lines 806-811: pop the first entry of the current dict and merge
it into the previous dict (`next(iter(...))` raises on an empty dict, hence
the `Option`). -/
def alignPair (cur prev : List (ℤ × ℤ)) :
    Option (List (ℤ × ℤ) × List (ℤ × ℤ)) :=
  match cur with
  | [] => none
  | p :: rest => some (rest, dictUnionOne prev p)

/-- The previous-period dense series: anchors `interval_start_date` and
`start_date` (home.py lines 788-804). -/
def previousSeries (s e : ℤ) (days : List ℤ) : List (ℤ × ℤ) :=
  densify (intervalStartDate s e) s (countsOf days)

/-- The current-period dense series: anchors `start_date - 1 day` and
`end_date` (home.py lines 770-786). -/
def currentSeries (s e : ℤ) (days : List ℤ) : List (ℤ × ℤ) :=
  densify (s - 1) e (countsOf days)

theorem nodup_dateRange (a b : ℤ) : (dateRange a b).Nodup :=
  (List.nodup_range _).map (fun i j h => by omega)

theorem pairwise_lt_dateRange (a b : ℤ) : (dateRange a b).Pairwise (· < ·) := by
  unfold dateRange
  refine List.Pairwise.map _ ?_ (List.pairwise_lt_range _)
  intro i j hij
  omega

theorem dateRange_eq_cons {a b : ℤ} (h : a < b) :
    dateRange a b = a :: dateRange (a + 1) b := by
  unfold dateRange
  have hn : (b - a).toNat = (b - (a + 1)).toNat + 1 := by omega
  rw [hn, List.range_succ_eq_map, List.map_cons, List.map_map]
  refine congrArg₂ _ (by simp) (List.map_congr_left ?_)
  intro i _
  simp only [Function.comp]
  push_cast
  ring

theorem lookup0_eq_of_mem {counts : List (ℤ × ℤ)}
    (hnd : (counts.map Prod.fst).Nodup) {x v : ℤ} (hmem : (x, v) ∈ counts) :
    lookup0 x counts = v := by
  induction counts with
  | nil => cases hmem
  | cons p ps ih =>
    rw [List.map_cons] at hnd
    rcases List.mem_cons.mp hmem with h | h
    · rw [← h]
      simp [lookup0]
    · have hx : x ∈ ps.map Prod.fst := List.mem_map.mpr ⟨(x, v), h, rfl⟩
      have hne : p.1 ≠ x := by
        intro h

        exact (List.nodup_cons.mp hnd).1 (h ▸ hx)
      simp only [lookup0, if_neg hne]
      exact ih (List.nodup_cons.mp hnd).2 h

theorem lookup0_eq_zero {counts : List (ℤ × ℤ)} {x : ℤ}
    (h : x ∉ counts.map Prod.fst) : lookup0 x counts = 0 := by
  induction counts with
  | nil => rfl
  | cons p ps ih =>
    simp only [List.map_cons, List.mem_cons, not_or] at h
    have hne : p.1 ≠ x := fun he => h.1 he.symm
    simp only [lookup0, if_neg hne]
    exact ih h.2

theorem lookup0_mem {counts : List (ℤ × ℤ)} {x : ℤ}
    (h : x ∈ counts.map Prod.fst) : (x, lookup0 x counts) ∈ counts := by
  induction counts with
  | nil => cases h
  | cons p ps ih =>
    simp only [lookup0]
    by_cases hp : p.1 = x
    · rw [if_pos hp]
      exact List.mem_cons.mpr (Or.inl (by rw [← hp]))
    · rw [if_neg hp]
      have hx : x ∈ ps.map Prod.fst := by
        simp only [List.map_cons, List.mem_cons] at h
        exact h.resolve_left (fun he => hp he.symm)
      exact List.mem_cons_of_mem _ (ih hx)

/-- Characterization of the zero-fill: when the sparse input has distinct
keys lying strictly between the two anchors, the output has exactly one
entry per day of the OPEN interval `(a, b)`, in ascending order, with the
input value where present and 0 elsewhere.  The anchor days themselves are
never zero-filled (they sit in the seed list `d`, so they are not "missing"). -/
theorem densify_eq_map (a b : ℤ) (counts : List (ℤ × ℤ))
    (hnd : (counts.map Prod.fst).Nodup)
    (hsub : ∀ p ∈ counts, a < p.1 ∧ p.1 < b) :
    densify a b counts =
      (dateRange (a + 1) b).map (fun x => (x, lookup0 x counts)) := by
  have hcnd : counts.Nodup := hnd.of_map
  unfold densify
  set miss := ((dateRange a b).filter
    (fun x => decide (x ∉ a :: (counts.map Prod.fst ++ [b])))) with hmiss
  have hmissmem : ∀ x : ℤ,
      x ∈ miss ↔ (a < x ∧ x < b ∧ x ∉ counts.map Prod.fst) := by
    intro x
    rw [hmiss, List.mem_filter, mem_dateRange]
    simp only [decide_eq_true_eq, List.mem_cons, List.mem_append]
    constructor
    · rintro ⟨⟨h1, h2⟩, hne⟩
      push_neg at hne
      exact ⟨by omega, h2, hne.2.1⟩
    · rintro ⟨h1, h2, h3⟩
      refine ⟨⟨by omega, h2⟩, ?_⟩
      push_neg
      exact ⟨by omega, h3, by simpa using (by omega : x ≠ b)⟩
  have hmissnd : miss.Nodup := (nodup_dateRange a b).filter _
  set L := counts ++ miss.map (fun x => (x, (0 : ℤ))) with hL
  set R := (dateRange (a + 1) b).map (fun x => (x, lookup0 x counts)) with hR
  have hLnd : L.Nodup := by
    rw [hL]
    refine hcnd.append (hmissnd.map ?_) ?_
    · intro x y hxy
      simpa using hxy
    · intro p hpc hpm
      obtain ⟨x, hxm, rfl⟩ := List.mem_map.mp hpm
      exact ((hmissmem x).mp hxm).2.2 (List.mem_map.mpr ⟨_, hpc, rfl⟩)
  have hRnd : R.Nodup := by
    rw [hR]
    exact (nodup_dateRange _ _).map (fun x y h => by simpa using congrArg Prod.fst h)
  have hmem : ∀ p : ℤ × ℤ, p ∈ L ↔ p ∈ R := by
    intro p
    rw [hL, hR, List.mem_append, List.mem_map, List.mem_map]
    constructor
    · rintro (hpc | ⟨x, hxm, rfl⟩)
      · refine ⟨p.1, mem_dateRange.mpr ?_, ?_⟩
        · have := hsub p hpc
          omega
        · have hv : lookup0 p.1 counts = p.2 := lookup0_eq_of_mem hnd hpc
          rw [hv]
      · obtain ⟨h1, h2, h3⟩ := (hmissmem x).mp hxm
        refine ⟨x, mem_dateRange.mpr ⟨by omega, h2⟩, ?_⟩
        rw [lookup0_eq_zero h3]
    · rintro ⟨x, hx, rfl⟩
      rw [mem_dateRange] at hx
      by_cases hk : x ∈ counts.map Prod.fst
      · exact Or.inl (lookup0_mem hk)
      · refine Or.inr ⟨x, (hmissmem x).mpr ⟨by omega, hx.2, hk⟩, ?_⟩
        rw [lookup0_eq_zero hk]
  have hperm : L.Perm R := (List.perm_ext_iff_of_nodup hLnd hRnd).mpr hmem
  have hsortR : List.Sorted pairLe R := by
    rw [hR]
    refine List.Pairwise.map _ ?_ (pairwise_lt_dateRange _ _)
    intro x y hxy
    exact Or.inl hxy
  exact List.eq_of_perm_of_sorted ((List.perm_insertionSort pairLe L).trans hperm)
    (List.sorted_insertionSort pairLe L) hsortR

theorem countsOf_keys_perm (days : List ℤ) :
    ((countsOf days).map Prod.fst).Perm days.dedup := by
  unfold countsOf
  have h :=
    (List.perm_insertionSort pairLe
      (days.dedup.map (fun d => (d, (days.count d : ℤ))))).map Prod.fst
  rw [List.map_map,
    show (Prod.fst ∘ fun d : ℤ => (d, (days.count d : ℤ))) = id from rfl,
    List.map_id] at h
  exact h

theorem countsOf_keys_nodup (days : List ℤ) :
    ((countsOf days).map Prod.fst).Nodup :=
  (countsOf_keys_perm days).nodup_iff.mpr (List.nodup_dedup days)

theorem countsOf_mem_days {days : List ℤ} {p : ℤ × ℤ}
    (hp : p ∈ countsOf days) : p.1 ∈ days := by
  unfold countsOf at hp
  rw [List.mem_insertionSort] at hp
  obtain ⟨d, hd, rfl⟩ := List.mem_map.mp hp
  exact List.mem_dedup.mp hd

/-- C8: the zero-fill step is idempotent.  Running the missing-day fill on
its own output finds no missing day and the sorted rebuild leaves the
already-sorted dict unchanged, so `densify a b (densify a b s) = densify a b s`
for every sparse input `s` and every pair of anchor days. -/
theorem claim_C8 (a b : ℤ) (s : List (ℤ × ℤ)) :
    densify a b (densify a b s) = densify a b s := by
  have hsorted : List.Sorted pairLe (densify a b s) := by
    unfold densify
    exact List.sorted_insertionSort pairLe _
  have hmemfst : ∀ x : ℤ, a < x → x < b → x ∈ (densify a b s).map Prod.fst := by
    intro x h1 h2
    have hperm := (List.perm_insertionSort pairLe
      (s ++ ((dateRange a b).filter
          (fun y => decide (y ∉ a :: (s.map Prod.fst ++ [b])))).map
        (fun y => (y, (0 : ℤ))))).map Prod.fst
    unfold densify
    rw [hperm.mem_iff, List.map_append, List.mem_append]
    by_cases hk : x ∈ s.map Prod.fst
    · exact Or.inl hk
    · right
      rw [List.map_map,
        show (Prod.fst ∘ fun y : ℤ => (y, (0 : ℤ))) = id from rfl, List.map_id,
        List.mem_filter, mem_dateRange]
      refine ⟨⟨by omega, h2⟩, ?_⟩
      simp only [decide_eq_true_eq, List.mem_cons, List.mem_append]
      push_neg
      exact ⟨by omega, hk, by simpa using (by omega : x ≠ b)⟩
  have hfil : ((dateRange a b).filter
      (fun x => decide (x ∉ a :: ((densify a b s).map Prod.fst ++ [b])))) = [] := by
    rw [List.filter_eq_nil_iff]
    intro x hx
    rw [mem_dateRange] at hx
    simp only [decide_eq_true_eq, not_not, List.mem_cons, List.mem_append]
    by_cases hxa : x = a
    · exact Or.inl hxa
    · exact Or.inr (Or.inl (hmemfst x (by omega) hx.2))
  show List.insertionSort pairLe
      ((densify a b s) ++ ((dateRange a b).filter
          (fun x => decide (x ∉ a :: ((densify a b s).map Prod.fst ++ [b])))).map
        (fun x => (x, (0 : ℤ)))) = densify a b s
  rw [hfil, List.map_nil, List.append_nil]
  exact hsorted.insertionSort_eq

/-- C4 counterexample: for the window `start = 10, end = 13` with an empty
sparse input, the current-period zero-fill produces entries for the days
10, 11 and 12 only — day 13 (and the anchor day 9) are seeded into `d` and
therefore never zero-filled — so the output has 3 entries, not the
`(end - start).days + 1 = 4` entries of the inclusive range that the claim
asserts. -/
theorem claim_C4_counterexample :
    currentSeries 10 13 [] = [(10, 0), (11, 0), (12, 0)] ∧
    ¬ (currentSeries 10 13 []).length = ((13 : ℤ) - 10).toNat + 1 := by
  constructor <;> decide

/-- C4 (amended): for anchors `a < b` and a sparse input with pairwise
distinct days lying strictly between the anchors, `densify` produces exactly
one entry per calendar day of the OPEN interval `(a, b)` — ascending, length
`(b - a).days - 1`, input value where present and 0 for absent days.  The
boundary anchor days are covered only when the sparse input itself contains
them; the inclusive-range length `(b - a).days + 1` claimed by the spec is
not attained. -/
theorem claim_C4_amended (a b : ℤ) (counts : List (ℤ × ℤ))
    (hnd : (counts.map Prod.fst).Nodup)
    (hsub : ∀ p ∈ counts, a < p.1 ∧ p.1 < b) :
    densify a b counts =
      (dateRange (a + 1) b).map (fun x => (x, lookup0 x counts)) ∧
    (densify a b counts).length = (b - a - 1).toNat ∧
    List.Sorted pairLe (densify a b counts) ∧
    (∀ x : ℤ, a < x → x < b → x ∉ counts.map Prod.fst →
      (x, (0 : ℤ)) ∈ densify a b counts) := by
  have h := densify_eq_map a b counts hnd hsub
  refine ⟨h, ?_, ?_, ?_⟩
  · rw [h, List.length_map, length_dateRange]
    omega
  · unfold densify
    exact List.sorted_insertionSort pairLe _
  · intro x h1 h2 h3
    rw [h]
    refine List.mem_map.mpr ⟨x, mem_dateRange.mpr ⟨by omega, h2⟩, ?_⟩
    rw [lookup0_eq_zero h3]

theorem claim_C4_witness :
    densify 0 3 [((1 : ℤ), (5 : ℤ))] =
      (dateRange 1 3).map (fun x => (x, lookup0 x [((1 : ℤ), (5 : ℤ))])) ∧
    (densify 0 3 [((1 : ℤ), (5 : ℤ))]).length = ((3 : ℤ) - 0 - 1).toNat ∧
    List.Sorted pairLe (densify 0 3 [((1 : ℤ), (5 : ℤ))]) ∧
    (∀ x : ℤ, 0 < x → x < 3 → x ∉ [((1 : ℤ), (5 : ℤ))].map Prod.fst →
      (x, (0 : ℤ)) ∈ densify 0 3 [((1 : ℤ), (5 : ℤ))]) := by
  have h := claim_C4_amended 0 3 [((1 : ℤ), (5 : ℤ))] (by decide) (by decide)
  exact h

/-- C3 counterexample: window `start = 0, end = 3`, one current-period error
on day 1 and one previous-period error on the previous window's FIRST day
(day -2 = interval_start_date).  That first day is seeded into the
previous dict by the query (it is not zero-filled away), so the previous
series has one extra entry; after the boundary shift the two series have
lengths 3 and 2 — not equal, contradicting the claim. -/
theorem claim_C3_counterexample :
    alignPair (currentSeries 0 3 [1]) (previousSeries 0 3 [-2]) =
      some ([((1 : ℤ), (1 : ℤ)), (2, 0)],
        [((-2 : ℤ), (1 : ℤ)), (-1, 0), (0, 0)]) ∧
    ¬ ([((1 : ℤ), (1 : ℤ)), (2, 0)].length =
        [((-2 : ℤ), (1 : ℤ)), (-1, 0), (0, 0)].length) := by
  constructor <;> decide

/-- C3 (amended): for a window spanning at least two days, when every
current-period event day lies in `[start, end)` and every previous-period
event day lies strictly between `interval_start_date` and `start` (in
particular, no event on the previous window's first day and none at the
window-edge midnights), the align step removes the first entry of the
current series — day `start` with its value — appends it as the last entry
of the previous series, and the two resulting series have equal length. -/
theorem claim_C3_amended (s e : ℤ) (curDays prevDays : List ℤ)
    (hwin : s + 2 ≤ e)
    (hcur : ∀ d ∈ curDays, s ≤ d ∧ d < e)
    (hprev : ∀ d ∈ prevDays, intervalStartDate s e < d ∧ d < s) :
    alignPair (currentSeries s e curDays) (previousSeries s e prevDays) =
      some ((currentSeries s e curDays).tail,
        previousSeries s e prevDays ++ [(s, lookup0 s (countsOf curDays))]) ∧
    (currentSeries s e curDays).head? = some (s, lookup0 s (countsOf curDays)) ∧
    ((currentSeries s e curDays).tail).length =
      (previousSeries s e prevDays ++ [(s, lookup0 s (countsOf curDays))]).length ∧
    (previousSeries s e prevDays ++
        [(s, lookup0 s (countsOf curDays))]).getLast? =
      some (s, lookup0 s (countsOf curDays)) := by
  have hcurEq : currentSeries s e curDays =
      (dateRange s e).map (fun x => (x, lookup0 x (countsOf curDays))) := by
    unfold currentSeries
    have h := densify_eq_map (s - 1) e (countsOf curDays)
      (countsOf_keys_nodup _) ?_
    · rw [h, show s - 1 + 1 = s from by ring]
    · intro p hp
      have hd := countsOf_mem_days hp
      have := hcur _ hd
      omega
  have hprevEq : previousSeries s e prevDays =
      (dateRange (intervalStartDate s e + 1) s).map
        (fun x => (x, lookup0 x (countsOf prevDays))) := by
    unfold previousSeries
    refine densify_eq_map _ _ _ (countsOf_keys_nodup _) ?_
    intro p hp
    exact hprev _ (countsOf_mem_days hp)
  have hcons : dateRange s e = s :: dateRange (s + 1) e :=
    dateRange_eq_cons (by omega)
  have hcurcons : currentSeries s e curDays =
      (s, lookup0 s (countsOf curDays)) ::
        (dateRange (s + 1) e).map (fun x => (x, lookup0 x (countsOf curDays))) := by
    rw [hcurEq, hcons, List.map_cons]
  have hnotmem : (s, lookup0 s (countsOf curDays)).1 ∉
      (previousSeries s e prevDays).map Prod.fst := by
    rw [hprevEq, List.map_map,
      show (Prod.fst ∘ fun x : ℤ => (x, lookup0 x (countsOf prevDays))) = id
        from rfl,
      List.map_id]
    intro hmem
    rw [mem_dateRange] at hmem
    omega
  refine ⟨?_, ?_, ?_, ?_⟩
  · rw [hcurcons]
    simp only [alignPair, dictUnionOne, if_neg hnotmem, List.tail_cons]
  · rw [hcurcons]
    rfl
  · rw [hcurcons, List.tail_cons, List.length_map, length_dateRange,
      List.length_append, hprevEq, List.length_map, length_dateRange,
      List.length_singleton]
    unfold intervalStartDate daysOfPeriod
    omega
  · exact List.getLast?_concat _

theorem claim_C3_witness :
    alignPair (currentSeries 0 2 []) (previousSeries 0 2 []) =
      some ((currentSeries 0 2 []).tail,
        previousSeries 0 2 [] ++ [((0 : ℤ), lookup0 0 (countsOf []))]) ∧
    (currentSeries 0 2 []).head? = some (0, lookup0 0 (countsOf [])) ∧
    ((currentSeries 0 2 []).tail).length =
      (previousSeries 0 2 [] ++ [((0 : ℤ), lookup0 0 (countsOf []))]).length ∧
    (previousSeries 0 2 [] ++ [((0 : ℤ), lookup0 0 (countsOf []))]).getLast? =
      some (0, lookup0 0 (countsOf [])) :=
  claim_C3_amended 0 2 [] [] (by decide)
    (fun d h => absurd h (List.not_mem_nil d))
    (fun d h => absurd h (List.not_mem_nil d))

/-! ## Trial-usage graphs and drill-down (product_usage.py) -/

/-- One row of the trial-products query (product_usage.py lines 46-75):
zero-based day of trial, product name, distinct-user count. -/
structure TrialRow where
  day_nr : ℤ
  product_name : String
  act_count : ℤ
deriving DecidableEq

/-- product_usage.py line 77: rows with `day_nr >= 14` are discarded. -/
def trialProductsFiltered (rows : List TrialRow) : List TrialRow :=
  rows.filter (fun r => decide (r.day_nr < 14))

/-- product_usage.py lines 80-81: every retained row's `day_nr` is
incremented by one (1..14 instead of 0..13). -/
def trialProductsOffset (rows : List TrialRow) : List TrialRow :=
  (trialProductsFiltered rows).map (fun r => { r with day_nr := r.day_nr + 1 })

/-- product_usage.py lines 102-106: the per-product `day_to_count` dict
(`{item["day_nr"]: item["act_count"] for item in ... if product matches}`,
later entries overwrite earlier ones) combined with `.get(day, ...)`. -/
def dayToCount (rows : List TrialRow) (product : String) (day : ℤ) : Option ℤ :=
  ((trialProductsOffset rows).filter
      (fun r => decide (r.product_name = product))).foldl
    (fun acc r => if r.day_nr = day then some r.act_count else acc) none

/-- product_usage.py line 99: `days = list(range(1, 15))`. -/
def days14 : List ℤ :=
  (List.range 14).map (fun (i : ℕ) => (i : ℤ) + 1)

/-- product_usage.py line 114: the y-values of one product's trace,
`[day_to_count.get(day, 0) for day in days]`. -/
def traceY (rows : List TrialRow) (product : String) : List ℤ :=
  days14.map (fun d => (dayToCount rows product d).getD 0)

/-- Reference lookup over the RAW query rows: the last row matching the
given product and ZERO-BASED day index (the spec-side description of what a
displayed bar should contain). -/
def rawLookup (rows : List TrialRow) (product : String) (dayIdx : ℤ) : Option ℤ :=
  rows.foldl
    (fun acc r =>
      if r.product_name = product ∧ r.day_nr = dayIdx then some r.act_count
      else acc) none

theorem dayToCount_eq_rawLookup (rows : List TrialRow) (product : String)
    (i : ℤ) (hi : i < 14) :
    dayToCount rows product (i + 1) = rawLookup rows product i := by
  unfold dayToCount rawLookup trialProductsOffset trialProductsFiltered
  suffices h : ∀ acc : Option ℤ,
      (((rows.filter (fun r => decide (r.day_nr < 14))).map
            (fun r => { r with day_nr := r.day_nr + 1 })).filter
          (fun r => decide (r.product_name = product))).foldl
        (fun acc r => if r.day_nr = i + 1 then some r.act_count else acc) acc =
      rows.foldl
        (fun acc r =>
          if r.product_name = product ∧ r.day_nr = i then some r.act_count
          else acc) acc by
    exact h none
  intro acc
  induction rows generalizing acc with
  | nil => rfl
  | cons r rs ih =>
    by_cases h1 : r.day_nr < 14
    · by_cases h2 : r.product_name = product
      · by_cases h3 : r.day_nr = i
        · simp [List.filter_cons, List.foldl_cons, h1, h2, h3, hi, ih]
        · have hne : ¬(r.day_nr + 1 = i + 1) := by omega
          simp [List.filter_cons, List.foldl_cons, h1, h2, h3, hne, ih]
      · simp [List.filter_cons, List.foldl_cons, h1, h2, ih]
    · have hno : ¬(r.product_name = product ∧ r.day_nr = i) := by
        rintro ⟨-, h⟩
        omega
      simp [List.filter_cons, List.foldl_cons, h1, hno, ih]

/-- C9: every per-product series the trial-usage graph renders has exactly
14 entries, and the entry at position `i` (displayed trial day `i + 1`) is
the count of the raw query rows with zero-based `day_nr = i` — rows with
`day_nr ≥ 14` are discarded and the retained rows' `day_nr` is shifted by
one, so displayed day `i + 1` reads zero-based day `i`. -/
theorem claim_C9 (rows : List TrialRow) (product : String) :
    (traceY rows product).length = 14 ∧
    ∀ i : Fin 14,
      (traceY rows product)[i.val]? =
        some ((rawLookup rows product (i.val : ℤ)).getD 0) := by
  constructor
  · unfold traceY days14
    rw [List.length_map, List.length_map, List.length_range]
  · intro i
    unfold traceY days14
    rw [List.getElem?_map, List.getElem?_map, List.getElem?_range i.isLt]
    simp only [Option.map_some']
    rw [dayToCount_eq_rawLookup rows product (i.val : ℤ)
      (by exact_mod_cast i.isLt)]

/-! ## Drill-down resolvers (product_usage.py display_product_usage_click_data,
home.py display_errors_click_data)

A click point carries `x`, `y`, the trace's `legendgroup` and the
`customdata` attached by the graph; the graphs always attach the triple
`[product, label, day]`, modelled as `Option (String × String × ℤ)`
(`none` = absent or too-short customdata). -/

structure ClickPoint where
  x : Option ℤ
  y : Option ℤ
  legendgroup : Option String
  customdata : Option (String × String × ℤ)
deriving DecidableEq

structure ClickEvent where
  points : List ClickPoint
deriving DecidableEq

/-- Outcome of the product drill-down callback: `noSelection` is the
`([], "")` return, `emptyState` the `([], heading)` return that skips the
query, `queried` records the query parameters `product_name`/`day_nr` and
the heading, `indexError` an uncaught `IndexError` (`points[0]` on an empty
list). -/
inductive ProductClickResult where
  | indexError : ProductClickResult
  | noSelection : ProductClickResult
  | emptyState (heading : String) : ProductClickResult
  | queried (product : String) (dayNr : ℤ) (heading : String) : ProductClickResult
deriving DecidableEq

def productsGraphId : String := "free-trials-products-products-graph"

/-- product_usage.py lines 20-25: the `PRODUCT_LABELS` dict as a partial map. -/
def PRODUCT_LABELS (p : String) : Option String :=
  if p = "BCS" then some "BCS"
  else if p = "GRABBER" then some "Grabber"
  else if p = "EXPORT" then some "Dashboard"
  else if p = "VR" then some "VR"
  else none

/-- Python `a or b` on optional strings: `None` and `""` are falsy. -/
def strOr (a b : Option String) : Option String :=
  match a with
  | some s => if s = "" then b else some s
  | none => b

/-- product_usage.py line 165: `PRODUCT_LABELS.get(product, customdata[1] if
len(customdata) >= 2 else product)`. -/
def productLabel (product : String)
    (customdata : Option (String × String × ℤ)) : String :=
  match PRODUCT_LABELS product with
  | some l => l
  | none =>
    match customdata with
    | some c => c.2.1
    | none => product

/-- product_usage.py line 166: the drill-down heading. -/
def productHeading (label : String) (day : ℤ) : String :=
  "Product: " ++ label ++ " - Day " ++ toString day

/-- product_usage.py lines 141-209: the product drill-down callback.
Guard on missing event / foreign trigger, `points[0]` (IndexError on an
empty list), product from `legendgroup or customdata[0]`, day from `x` with
customdata fallback, the zero-`y` short-circuit, else the query with
`day_nr = day - 1`. -/
def display_product_usage_click_data (clickData : Option ClickEvent)
    (triggeredId : String) : ProductClickResult :=
  match clickData with
  | none => ProductClickResult.noSelection
  | some ev =>
    if triggeredId ≠ productsGraphId then ProductClickResult.noSelection
    else
      match ev.points with
      | [] => ProductClickResult.indexError
      | point :: _ =>
        match strOr point.legendgroup (point.customdata.map (fun c => c.1)) with
        | none => ProductClickResult.noSelection
        | some product =>
          if product = "" then ProductClickResult.noSelection
          else
            match (match point.x with
                   | some d => some d
                   | none => point.customdata.map (fun c => c.2.2)) with
            | none => ProductClickResult.noSelection
            | some day =>
              if point.y.getD 0 = 0 then
                ProductClickResult.emptyState
                  (productHeading (productLabel product point.customdata) day ++
                    " (no active users)")
              else
                ProductClickResult.queried product (day - 1)
                  (productHeading (productLabel product point.customdata) day)

/-- One detail activity of the errors graph (home.py): its day, the
current/previous period flag and the error name. -/
structure ErrAct where
  day : ℤ
  interval_var : ℤ
  activity : String
deriving DecidableEq

structure ErrPoint where
  customdata : List ErrAct
deriving DecidableEq

structure ErrClickEvent where
  points : List ErrPoint
deriving DecidableEq

inductive ErrClickResult where
  | indexError : ErrClickResult
  | noSelection : ErrClickResult
  | table (rows : List ErrAct) (heading : String) : ErrClickResult
deriving DecidableEq

def errorsGraphProp : String := "home-errors-graph.clickData"

/-- home.py lines 732-740: the errors-table callback.  `points[0]` and
`activities[0]` raise IndexError on empty lists; otherwise the activities
are filtered to the current period (`interval_var == 1`). -/
def display_errors_click_data (failClickData : Option ErrClickEvent)
    (triggeredPropIds : List String) : ErrClickResult :=
  match failClickData with
  | none => ErrClickResult.noSelection
  | some ev =>
    if errorsGraphProp ∈ triggeredPropIds then
      match ev.points with
      | [] => ErrClickResult.indexError
      | point :: _ =>
        match point.customdata with
        | [] => ErrClickResult.indexError
        | act :: rest =>
          ErrClickResult.table
            ((act :: rest).filter (fun a => decide (a.interval_var = 1)))
            ("Error: " ++ act.activity)
    else ErrClickResult.noSelection

/-- C5 counterexample: a click event that is present and correctly
triggered but carries an EMPTY `points` list makes the resolver evaluate
`points[0]` and raise IndexError instead of returning `([], "")`. -/
theorem claim_C5_counterexample :
    display_product_usage_click_data (some ⟨[]⟩) productsGraphId =
      ProductClickResult.indexError ∧
    ¬ display_product_usage_click_data (some ⟨[]⟩) productsGraphId =
        ProductClickResult.noSelection := by
  constructor <;> decide

/-- C5 (amended): an ABSENT click event (falsy `clickData`) or a foreign
trigger id yields the empty result `([], "")` in both drill-down callbacks;
but a present event whose `points` list is empty raises IndexError at
`points[0]` in both callbacks rather than returning the empty result. -/
theorem claim_C5_amended (oev : Option ClickEvent) (tid : String)
    (ev : ClickEvent) (oev2 : Option ErrClickEvent) (ev2 : ErrClickEvent)
    (tids : List String) :
    display_product_usage_click_data none tid = ProductClickResult.noSelection ∧
    (tid ≠ productsGraphId →
      display_product_usage_click_data oev tid = ProductClickResult.noSelection) ∧
    (ev.points = [] →
      display_product_usage_click_data (some ev) productsGraphId =
        ProductClickResult.indexError) ∧
    display_errors_click_data none tids = ErrClickResult.noSelection ∧
    (errorsGraphProp ∉ tids →
      display_errors_click_data oev2 tids = ErrClickResult.noSelection) ∧
    (ev2.points = [] → errorsGraphProp ∈ tids →
      display_errors_click_data (some ev2) tids = ErrClickResult.indexError) := by
  refine ⟨rfl, ?_, ?_, rfl, ?_, ?_⟩
  · intro h
    match oev with
    | none => rfl
    | some ev' =>
      simp only [display_product_usage_click_data]
      rw [if_pos h]
  · intro h
    simp only [display_product_usage_click_data, h]
    rw [if_neg (by simp)]
  · intro h
    match oev2 with
    | none => rfl
    | some ev' =>
      simp only [display_errors_click_data]
      rw [if_neg h]
  · intro h ht
    simp only [display_errors_click_data, h]
    rw [if_pos ht]

theorem claim_C5_witness :
    display_product_usage_click_data none "x" = ProductClickResult.noSelection ∧
    display_product_usage_click_data (some ⟨[⟨none, none, none, none⟩]⟩) "x" =
      ProductClickResult.noSelection ∧
    display_product_usage_click_data
        (some (ClickEvent.mk ([] : List ClickPoint))) productsGraphId =
      ProductClickResult.indexError ∧
    display_errors_click_data none ["x"] = ErrClickResult.noSelection ∧
    display_errors_click_data (some ⟨[⟨[]⟩]⟩) ["x"] = ErrClickResult.noSelection ∧
    display_errors_click_data (some (ErrClickEvent.mk ([] : List ErrPoint)))
        [errorsGraphProp] = ErrClickResult.indexError := by
  have h1 := claim_C5_amended (some ⟨[⟨none, none, none, none⟩]⟩) "x"
    (ClickEvent.mk ([] : List ClickPoint)) (some ⟨[⟨[]⟩]⟩)
    (ErrClickEvent.mk ([] : List ErrPoint)) ["x"]
  have h2 := claim_C5_amended (some ⟨[⟨none, none, none, none⟩]⟩) "x"
    (ClickEvent.mk ([] : List ClickPoint)) (some ⟨[⟨[]⟩]⟩)
    (ErrClickEvent.mk ([] : List ErrPoint)) [errorsGraphProp]
  exact ⟨h1.1, h1.2.1 (by decide), h1.2.2.1 rfl, h1.2.2.2.1,
    h1.2.2.2.2.1 (by decide), h2.2.2.2.2.2 rfl (by decide)⟩

/-- C7: a click on a bar whose value `y` is 0 short-circuits before the
database query: the resolver returns the empty row list together with the
heading suffixed with " (no active users)", and the outcome is never the
`queried` one (no follow-up query is issued). -/
theorem claim_C7 (ev : ClickEvent) (point : ClickPoint)
    (rest : List ClickPoint) (p : String) (d : ℤ)
    (hpts : ev.points = point :: rest)
    (hlg : point.legendgroup = some p) (hp : p ≠ "")
    (hx : point.x = some d) (hy : point.y = some 0) :
    display_product_usage_click_data (some ev) productsGraphId =
      ProductClickResult.emptyState
        (productHeading (productLabel p point.customdata) d ++
          " (no active users)") ∧
    ∀ q n h, display_product_usage_click_data (some ev) productsGraphId ≠
        ProductClickResult.queried q n h := by
  have hmain : display_product_usage_click_data (some ev) productsGraphId =
      ProductClickResult.emptyState
        (productHeading (productLabel p point.customdata) d ++
          " (no active users)") := by
    simp [display_product_usage_click_data, hpts, hlg, hx, hy, strOr, hp]
  refine ⟨hmain, fun q n h hc => ?_⟩
  rw [hmain] at hc
  exact ProductClickResult.noConfusion hc

theorem claim_C7_witness :
    display_product_usage_click_data
        (some ⟨[⟨some 3, some 0, some "BCS", some ("BCS", "BCS", 3)⟩]⟩)
        productsGraphId =
      ProductClickResult.emptyState
        (productHeading (productLabel "BCS" (some ("BCS", "BCS", 3))) 3 ++
          " (no active users)") ∧
    ∀ q n h,
      display_product_usage_click_data
          (some ⟨[⟨some 3, some 0, some "BCS", some ("BCS", "BCS", 3)⟩]⟩)
          productsGraphId ≠
        ProductClickResult.queried q n h :=
  claim_C7 ⟨[⟨some 3, some 0, some "BCS", some ("BCS", "BCS", 3)⟩]⟩
    ⟨some 3, some 0, some "BCS", some ("BCS", "BCS", 3)⟩ [] "BCS" 3
    rfl rfl (by decide) rfl rfl

/-- C10: clicking displayed trial day `d` (1..14) of the product-usage graph
issues the detail query with `day_nr = d - 1`, and position `d - 1` of the
rendered series — the clicked bar — was computed exactly from the raw query
rows with zero-based `day_nr = d - 1`: the resolver inverts the graph's
one-based display offset. -/
theorem claim_C10 (rows : List TrialRow) (ev : ClickEvent)
    (point : ClickPoint) (rest : List ClickPoint) (p : String) (d v : ℤ)
    (hpts : ev.points = point :: rest)
    (hlg : point.legendgroup = some p) (hp : p ≠ "")
    (hx : point.x = some d) (hy : point.y = some v) (hv : v ≠ 0)
    (hd1 : 1 ≤ d) (hd14 : d ≤ 14) :
    display_product_usage_click_data (some ev) productsGraphId =
      ProductClickResult.queried p (d - 1)
        (productHeading (productLabel p point.customdata) d) ∧
    (traceY rows p)[(d - 1).toNat]? =
      some ((rawLookup rows p (d - 1)).getD 0) := by
  constructor
  · simp [display_product_usage_click_data, hpts, hlg, hx, hy, strOr, hp, hv]
  · have hi : (d - 1).toNat < 14 := by omega
    unfold traceY days14
    rw [List.getElem?_map, List.getElem?_map, List.getElem?_range hi]
    simp only [Option.map_some']
    rw [show (((d - 1).toNat : ℤ)) = d - 1 from by omega,
      dayToCount_eq_rawLookup rows p (d - 1) (by omega)]

theorem claim_C10_witness :
    display_product_usage_click_data
        (some ⟨[⟨some 3, some 5, some "BCS", some ("BCS", "BCS", 3)⟩]⟩)
        productsGraphId =
      ProductClickResult.queried "BCS" (3 - 1)
        (productHeading (productLabel "BCS" (some ("BCS", "BCS", 3))) 3) ∧
    (traceY [⟨2, "BCS", 5⟩] "BCS")[((3 : ℤ) - 1).toNat]? =
      some ((rawLookup [⟨2, "BCS", 5⟩] "BCS" ((3 : ℤ) - 1)).getD 0) :=
  claim_C10 [⟨2, "BCS", 5⟩]
    ⟨[⟨some 3, some 5, some "BCS", some ("BCS", "BCS", 3)⟩]⟩
    ⟨some 3, some 5, some "BCS", some ("BCS", "BCS", 3)⟩ [] "BCS" 3 5
    rfl rfl (by decide) rfl rfl (by decide) (by decide) (by decide)

/-! ## Product mix graph (product_usage.py, update_product_mix_graph) -/

def PRODUCT_LIST : List String := ["BCS", "GRABBER", "EXPORT", "VR"]

/-- Python `"+".join`. -/
def joinPlus : List String → String
  | [] => ""
  | [s] => s
  | s :: rest => s ++ "+" ++ joinPlus rest

/-- product_usage.py lines 494-497: per organization,
`"+".join(sorted(list(set([p for p in products if p in PRODUCT_LIST]))))`. -/
def preSelection (mixes : List (List String)) : List String :=
  mixes.map (fun ps =>
    joinPlus (List.insertionSort (fun a b : String => a ≤ b)
      ((ps.filter (fun p => decide (p ∈ PRODUCT_LIST))).dedup)))

/-- `Counter.most_common()`: entries sorted by descending count. -/
def mostCommonDesc (l : List (String × ℕ)) : List (String × ℕ) :=
  List.insertionSort (fun p q : String × ℕ => q.2 ≤ p.2) l

/-- product_usage.py lines 499-502: build the counter over the mix strings,
`counter.pop("")` — raising `KeyError` when no organization had an empty
mix — and `mixes, counts = zip(*counter.most_common(), strict=False)` —
raising `ValueError` when nothing remains to unpack. -/
def update_product_mix_result (mixes : List (List String)) :
    Except String (List (String × ℕ)) :=
  let pre := preSelection mixes
  let counter : List (String × ℕ) := pre.dedup.map (fun s => (s, pre.count s))
  if "" ∈ pre then
    let remaining := counter.filter (fun q => decide (q.1 ≠ ""))
    if remaining.isEmpty then Except.error "ValueError"
    else Except.ok (mostCommonDesc remaining)
  else Except.error "KeyError"

/-- C6 (code bug): an empty query result — no trial organization in the
selected date range — makes `update_product_mix_graph` raise `KeyError` at
`counter.pop("")` instead of rendering an empty chart; the same happens on
any result in which every organization has a non-empty product mix. -/
theorem claim_C6 :
    update_product_mix_result [] = Except.error "KeyError" ∧
    update_product_mix_result [["BCS"]] = Except.error "KeyError" := by
  constructor <;> rfl

end TrialsDash
